import Mathlib

/-!
go-apns: the send path of `apns/apns_service.go`

A shallow embedding of `ApnsClient.SendSimpleNotification`,
`ApnsClient.SendEnhancedNotification` and `ApnsClient.sendMessage`.

The connection pool (`IConnFactory`), the connections (`IConn`) and the message
store (`entry.IMessageStorage`) are Go interfaces: the client receives arbitrary
implementations of them.  They are embedded as state-passing operations over an
arbitrary state type, so a theorem quantified over `Env` speaks about every
behaviour of the pool, of the connections and of the store.  Every call made on
one of these interfaces is also recorded, in program order, in a list of
`Event`s returned next to the Go result.  `log.Printf` calls are not embedded.
-/

namespace Apns

/-- A non-nil Go `error`, identified by its message.  A Go value of type `error`
is an `Option GoError`, `none` being `nil`. -/
abbrev GoError := String

/-- A non-nil `IConn`, identified by the id it was created with.  A Go value of
type `IConn` is an `Option IConn`, `none` being `nil`. -/
abbrev IConn := Nat

/-- Modelled from the spec: the constants `entry.MESSAGE_TYPE_SIMPLE` and
`entry.MESSAGE_TYPE_ENHANCED` are declared in package `entry`; the data model
gives a message's kind as Simple | Enhanced. -/
inductive MessageType where
  | MESSAGE_TYPE_SIMPLE
  | MESSAGE_TYPE_ENHANCED
  deriving DecidableEq, Repr

/-- Modelled from the spec: the command constants `entry.CMD_SIMPLE_NOTIFY` and
`entry.CMD_ENHANCE_NOTIFY` are declared in package `entry`. -/
inductive Command where
  | CMD_SIMPLE_NOTIFY
  | CMD_ENHANCE_NOTIFY
  deriving DecidableEq, Repr

/-- Modelled from the spec: `entry.Item` is declared in package `entry`; an item
is a tag and a byte sequence. -/
structure Item where
  tag : Nat
  value : List Nat
  deriving DecidableEq, Repr

/-- Modelled from the spec: `entry.Message` is declared in package `entry`; a
message is a command kind, a time-to-live and an ordered sequence of items.  The
items are `*Item` pointers in the source, so an entry may be `nil`
(`SendSimpleNotification` adds the result of `WrapPayLoad` unchecked). -/
structure Message where
  cmd : Command
  ttl : Nat
  MsgType : MessageType
  items : List (Option Item)
  deriving DecidableEq, Repr

/-- Modelled from the spec: `entry.NewMessage` is declared in package `entry`;
it builds a message of the given command, time-to-live and kind, without items. -/
def NewMessage (cmd : Command) (ttl : Nat) (msgType : MessageType) : Message :=
  { cmd := cmd, ttl := ttl, MsgType := msgType, items := [] }

/-- Modelled from the spec: `Message.AddItem` is declared in package `entry`; it
appends the items, in order, to the message's sequence of items. -/
def Message.AddItem (message : Message) (items : List (Option Item)) : Message :=
  { message with items := message.items ++ items }

/-- One call on the pool, on a connection or on the store, with what it returned. -/
inductive Event where
  /-- The call `self.factory.Get()` returned `(err, conn)`. -/
  | get (err : Option GoError) (conn : Option IConn)
  /-- The call `self.storage.Insert(id, msg)`. -/
  | insert (id : Nat) (msg : Message)
  /-- The call `conn.sendMessage(msg)` returned `err`. -/
  | write (conn : IConn) (msg : Message) (err : Option GoError)
  /-- The call `self.factory.ReleaseBroken(conn)` returned `releaseErr`. -/
  | releaseBroken (conn : IConn) (releaseErr : Option GoError)
  /-- The call `self.factory.Release(conn)`; the source discards what it returns. -/
  | release (conn : IConn)
  deriving DecidableEq, Repr

/-- The interface `IConnFactory`, as far as the send path uses it, over the state
`W` of the pool and of its connections. -/
structure IConnFactory (W : Type) where
  Get : W → (Option GoError × Option IConn) × W
  Release : IConn → W → Option GoError × W
  ReleaseBroken : IConn → W → Option GoError × W

/-- Everything `apns_service.go` takes from outside: the pool, the connections'
`sendMessage`, the store's `Insert` and the helpers of package `entry`.
`W` is the state of the pool and connections, `S` the state of the store, `P` the
type `entry.PayLoad`. -/
structure Env (W S P : Type) where
  factory : IConnFactory W
  /-- The method `conn.sendMessage(msg)` of `IConn`. -/
  connSendMessage : IConn → Message → W → Option GoError × W
  /-- The method `storage.Insert(id, msg)` of `entry.IMessageStorage`. -/
  Insert : Nat → Message → S → S
  WrapDeviceToken : String → Option Item
  /-- The helper `entry.WrapPayLoad`: `none` is the `nil` of a payload that does not encode. -/
  WrapPayLoad : P → Option Item
  WrapNotifyIdentifier : Nat → Option Item
  WrapExpirationDate : Nat → Option Item
  UmarshalIdentifier : Message → Nat

/-- Modelled from the spec: `entry.Counter` is declared in package `entry`; a
counter is a running total that only grows, with the total at its last read. -/
structure Counter where
  total : Nat
  lastRead : Nat
  deriving DecidableEq, Repr

/-- Modelled from the spec: `Counter.Incr` is declared in package `entry`; it
adds `n` to the running total. -/
def Counter.Incr (c : Counter) (n : Nat) : Counter :=
  { c with total := c.total + n }

/-- The struct `ApnsClient`.  `world` is the state behind `factory`; `storage` is
`none` for a nil store.  `feedbackFactory` is not touched by the send path and is
left out. -/
structure ApnsClient (W S : Type) where
  world : W
  running : Bool
  maxttl : Nat
  storage : Option S
  sendCounter : Counter
  failCounter : Counter

/-- What a call returns: the Go `error`, the client afterwards, and the calls it
made on the pool, the connections and the store, in order. -/
structure Outcome (W S : Type) where
  err : Option GoError
  self : ApnsClient W S
  trace : List Event

/-- What one pass through the body of the `for` loop of `sendMessage` leaves:
the value of `sendError`, the client, the calls made, and whether the pass ended
in `break`. -/
structure Pass (W S : Type) where
  sendError : Option GoError
  self : ApnsClient W S
  events : List Event
  done : Bool

/-- Lines 116-125 of `sendMessage`: the store after the guarded `Insert`. -/
def recordMessage {W S P : Type} (env : Env W S P) (msg : Message) (storage : Option S) :
    Option S :=
  match storage with
  | some s =>
    if msg.MsgType = MessageType.MESSAGE_TYPE_ENHANCED then
      some (env.Insert (env.UmarshalIdentifier msg) msg s)
    else some s
  | none => none

/-- Lines 116-125 of `sendMessage`: the `Insert` call made, if any. -/
def recordEvents {W S P : Type} (env : Env W S P) (msg : Message) (storage : Option S) :
    List Event :=
  match storage with
  | some _ =>
    if msg.MsgType = MessageType.MESSAGE_TYPE_ENHANCED then
      [Event.insert (env.UmarshalIdentifier msg) msg]
    else []
  | none => []

/-- The body of the `for` loop of `sendMessage` (lines 108-142). -/
def sendPass {W S P : Type} (env : Env W S P) (msg : Message) (self : ApnsClient W S) :
    Pass W S :=
  match env.factory.Get self.world with
  | ((none, some conn), w1) =>
    let storage := recordMessage env msg self.storage
    match env.connSendMessage conn msg w1 with
    | (some sendError, w2) =>
      match env.factory.ReleaseBroken conn w2 with
      | (releaseErr, w3) =>
        { sendError := some sendError
          self := { self with world := w3, storage := storage,
                              sendCounter := self.sendCounter.Incr 1,
                              failCounter := self.failCounter.Incr 1 }
          events := Event.get none (some conn) :: recordEvents env msg self.storage ++
            [Event.write conn msg (some sendError), Event.releaseBroken conn releaseErr]
          done := false }
    | (none, w2) =>
      { sendError := none
        self := { self with world := (env.factory.Release conn w2).2, storage := storage,
                            sendCounter := self.sendCounter.Incr 1 }
        events := Event.get none (some conn) :: recordEvents env msg self.storage ++
          [Event.write conn msg none, Event.release conn]
        done := true }
  | ((err, conn), w1) =>
    { sendError := err
      self := { self with world := w1 }
      events := [Event.get err conn]
      done := false }

/-- The `for` loop of `sendMessage`, with `remaining = 3 - i` passes still to go. -/
def sendLoop {W S P : Type} (env : Env W S P) (msg : Message) :
    Nat → Option GoError → ApnsClient W S → Outcome W S
  | 0, sendError, self => { err := sendError, self := self, trace := [] }
  | remaining + 1, _, self =>
    let pass := sendPass env msg self
    if pass.done then
      { err := pass.sendError, self := pass.self, trace := pass.events }
    else
      let rest := sendLoop env msg remaining pass.sendError pass.self
      { err := rest.err, self := rest.self, trace := pass.events ++ rest.trace }

/-- The method `ApnsClient.sendMessage` (lines 104-146). -/
def sendMessage {W S P : Type} (env : Env W S P) (self : ApnsClient W S) (msg : Message) :
    Outcome W S :=
  sendLoop env msg 3 none self

/-- The message `SendSimpleNotification` builds (lines 84-85). -/
def simpleMessage {W S P : Type} (env : Env W S P) (self : ApnsClient W S)
    (deviceToken : String) (payload : P) : Message :=
  (NewMessage Command.CMD_SIMPLE_NOTIFY self.maxttl MessageType.MESSAGE_TYPE_SIMPLE).AddItem
    [env.WrapDeviceToken deviceToken, env.WrapPayLoad payload]

/-- The method `ApnsClient.SendSimpleNotification` (lines 83-88). -/
def SendSimpleNotification {W S P : Type} (env : Env W S P) (self : ApnsClient W S)
    (deviceToken : String) (payload : P) : Outcome W S :=
  sendMessage env self (simpleMessage env self deviceToken payload)

/-- The message `SendEnhancedNotification` builds around an encoded payload
(lines 92-93 and 98-99). -/
def enhancedMessage {W S P : Type} (env : Env W S P) (self : ApnsClient W S)
    (identifier expiriedTime : Nat) (deviceToken : String) (payload : Item) : Message :=
  (NewMessage Command.CMD_ENHANCE_NOTIFY self.maxttl MessageType.MESSAGE_TYPE_ENHANCED).AddItem
    [env.WrapNotifyIdentifier identifier, env.WrapExpirationDate expiriedTime,
     env.WrapDeviceToken deviceToken, some payload]

/-- The method `ApnsClient.SendEnhancedNotification` (lines 91-102). -/
def SendEnhancedNotification {W S P : Type} (env : Env W S P) (self : ApnsClient W S)
    (identifier expiriedTime : Nat) (deviceToken : String) (pl : P) : Outcome W S :=
  match env.WrapPayLoad pl with
  | none =>
    { err := some "SendEnhancedNotification|PAYLOAD|ENCODE|FAIL", self := self, trace := [] }
  | some payload =>
    sendMessage env self (enhancedMessage env self identifier expiriedTime deviceToken payload)

/-! ### Reading a trace -/

/-- A call of `factory.Get`. -/
def Event.isGet : Event → Bool
  | Event.get _ _ => true
  | _ => false

/-- A `factory.Get` that passed the guard of line 109: nil error, non-nil connection. -/
def Event.isAcquire : Event → Bool
  | Event.get none (some _) => true
  | _ => false

/-- A `factory.Get` that took the branch of lines 109-113. -/
def Event.isGetFail : Event → Bool
  | Event.get none (some _) => false
  | Event.get _ _ => true
  | _ => false

/-- A call of `conn.sendMessage`. -/
def Event.isWrite : Event → Bool
  | Event.write _ _ _ => true
  | _ => false

/-- A `conn.sendMessage` that returned nil. -/
def Event.isWriteOk : Event → Bool
  | Event.write _ _ none => true
  | _ => false

/-- A `conn.sendMessage` that returned an error. -/
def Event.isWriteFail : Event → Bool
  | Event.write _ _ (some _) => true
  | _ => false

/-- A call of `storage.Insert`. -/
def Event.isInsert : Event → Bool
  | Event.insert _ _ => true
  | _ => false

/-- A call of `factory.Release`. -/
def Event.isRelease : Event → Bool
  | Event.release _ => true
  | _ => false

/-- A call of `factory.ReleaseBroken`. -/
def Event.isReleaseBroken : Event → Bool
  | Event.releaseBroken _ _ => true
  | _ => false

/-- The event concerns connection `c`: it acquired, wrote to or handed back `c`. -/
def Event.onConn (c : IConn) : Event → Bool
  | Event.get none (some d) => d = c
  | Event.write d _ _ => d = c
  | Event.releaseBroken d _ => d = c
  | Event.release d => d = c
  | _ => false

/-- The error each attempt of a trace ended with, in order: the error of a `Get`
that took the failure branch, or what the write returned. -/
def attemptErrors : List Event → List (Option GoError)
  | [] => []
  | Event.get none (some _) :: rest => attemptErrors rest
  | Event.get err _ :: rest => err :: attemptErrors rest
  | Event.write _ _ err :: rest => err :: attemptErrors rest
  | _ :: rest => attemptErrors rest

/-- What the caller holds of the pool at a point of a trace. -/
inductive Held where
  /-- No connection. -/
  | nothing
  /-- A connection just acquired, not yet written to. -/
  | fresh (conn : IConn)
  /-- A connection written to; `ok` tells whether the write returned nil. -/
  | written (conn : IConn) (ok : Bool)
  deriving DecidableEq, Repr

/-- One event seen by the ownership discipline: `Get` only while holding nothing,
a write only on the connection just acquired, `Release` only of the held
connection after a write that succeeded, `ReleaseBroken` only of the held
connection after a write that failed.  `none` is a violation. -/
def Held.step : Held → Event → Option Held
  | Held.nothing, Event.get none (some c) => some (Held.fresh c)
  | Held.nothing, Event.get _ _ => some Held.nothing
  | h, Event.insert _ _ => some h
  | Held.fresh c, Event.write d _ err => if c = d then some (Held.written c err.isNone) else none
  | Held.written c false, Event.releaseBroken d _ => if c = d then some Held.nothing else none
  | Held.written c true, Event.release d => if c = d then some Held.nothing else none
  | _, _ => none

/-- The ownership discipline run over a trace. -/
def Held.run : Held → List Event → Option Held
  | h, [] => some h
  | h, e :: rest =>
    match h.step e with
    | some h2 => Held.run h2 rest
    | none => none

/-- A trace respects the ownership discipline and ends holding no connection. -/
def handedBack (t : List Event) : Bool :=
  Held.run Held.nothing t == some Held.nothing

/-- The pool state reached when the calls of a trace are really made, one after
the other, from the pool state `w`: each `get`, `write`, `releaseBroken` and
`release` event applies `factory.Get`, `conn.sendMessage`,
`factory.ReleaseBroken` and `factory.Release` of the environment to the current
state.  The result is `none` when a recorded result is not what the call
returns in that state. -/
def replay {W S P : Type} (env : Env W S P) : W → List Event → Option W
  | w, [] => some w
  | w, Event.get err conn :: rest =>
    if (env.factory.Get w).1 = (err, conn) then replay env (env.factory.Get w).2 rest else none
  | w, Event.insert _ _ :: rest => replay env w rest
  | w, Event.write conn m err :: rest =>
    if (env.connSendMessage conn m w).1 = err then
      replay env (env.connSendMessage conn m w).2 rest
    else none
  | w, Event.releaseBroken conn releaseErr :: rest =>
    if (env.factory.ReleaseBroken conn w).1 = releaseErr then
      replay env (env.factory.ReleaseBroken conn w).2 rest
    else none
  | w, Event.release conn :: rest => replay env (env.factory.Release conn w).2 rest

/-- A hand-back of a connection to the pool: `Release` or `ReleaseBroken`. -/
def Event.isHandBack : Event → Bool
  | Event.release _ => true
  | Event.releaseBroken _ _ => true
  | _ => false

/-- A `factory.Get` that returned the connection `c`, with or without an error. -/
def Event.returnsConn (c : IConn) : Event → Bool
  | Event.get _ (some d) => d = c
  | _ => false

/-! ### A scripted environment, for the examples -/

/-- What a scripted pool answers in one attempt. -/
structure Answer where
  getErr : Option GoError
  conn : Option IConn
  writeErr : Option GoError
  deriving DecidableEq, Repr

/-- The state of the scripted pool: the script still to play, the connections
given back by `Release` and those evicted by `ReleaseBroken`, each in order. -/
structure Pool where
  script : List Answer
  idle : List IConn
  broken : List IConn
  deriving DecidableEq, Repr

/-- A pool that plays a script: each `Get` answers with the head of the script; a
failed `Get` or a write consumes the head.  An exhausted script answers
`(nil, nil)` and writes succeed.  `Release` files the connection under `idle`,
`ReleaseBroken` under `broken`. -/
def scriptedFactory : IConnFactory Pool where
  Get w :=
    match w.script with
    | [] => ((none, none), w)
    | a :: rest =>
      match a.getErr, a.conn with
      | none, some c => ((none, some c), w)
      | e, c => ((e, c), { w with script := rest })
  Release c w := (none, { w with idle := w.idle ++ [c] })
  ReleaseBroken c w := (none, { w with broken := w.broken ++ [c] })

/-- Modelled from the spec: a store as the sequence of its entries; `Insert` adds
an entry at the end and fails, changing nothing, if the identifier already exists. -/
def storeInsert (id : Nat) (msg : Message) (s : List (Nat × Message)) : List (Nat × Message) :=
  if s.any (fun entry => entry.1 == id) then s else s ++ [(id, msg)]

/-- The identifier item of a message: the value of its first item of tag 1. -/
def firstIdentifier : List (Option Item) → Nat
  | [] => 0
  | some item :: rest => if item.tag = 1 then item.value.headD 0 else firstIdentifier rest
  | none :: rest => firstIdentifier rest

/-- The scripted environment: payloads are byte sequences and the empty one does
not encode. -/
def scripted : Env Pool (List (Nat × Message)) (List Nat) where
  factory := scriptedFactory
  connSendMessage _ _ w :=
    match w.script with
    | [] => (none, w)
    | a :: rest => (a.writeErr, { w with script := rest })
  Insert := storeInsert
  WrapDeviceToken token := some { tag := 3, value := token.toList.map Char.toNat }
  WrapPayLoad p := if p.isEmpty then none else some { tag := 4, value := p }
  WrapNotifyIdentifier identifier := some { tag := 1, value := [identifier] }
  WrapExpirationDate expiriedTime := some { tag := 2, value := [expiriedTime] }
  UmarshalIdentifier msg := firstIdentifier msg.items

/-- A client over the scripted pool, with an empty store. -/
def scriptedClient (script : List Answer) : ApnsClient Pool (List (Nat × Message)) :=
  { world := { script := script, idle := [], broken := [] }, running := true, maxttl := 3,
    storage := some [],
    sendCounter := { total := 0, lastRead := 0 }, failCounter := { total := 0, lastRead := 0 } }

/-- An Enhanced message with identifier 7. -/
def sampleMessage : Message :=
  { cmd := Command.CMD_ENHANCE_NOTIFY, ttl := 3, MsgType := MessageType.MESSAGE_TYPE_ENHANCED,
    items := [some { tag := 1, value := [7] }, some { tag := 4, value := [1] }] }

/-- The answer of an attempt whose `Get` fails with the given message. -/
def getFails (e : GoError) : Answer := { getErr := some e, conn := none, writeErr := none }

/-- The answer of an attempt that acquires `c` and whose write fails with `e`. -/
def writeFails (c : IConn) (e : GoError) : Answer :=
  { getErr := none, conn := some c, writeErr := some e }

/-- The answer of an attempt that acquires `c` and whose write succeeds. -/
def writeSucceeds (c : IConn) : Answer := { getErr := none, conn := some c, writeErr := none }

/-- The answer of an attempt whose `Get` returns the error `e` together with the
connection `c`. -/
def getBoth (e : GoError) (c : IConn) : Answer :=
  { getErr := some e, conn := some c, writeErr := none }

/-- The answer of an attempt whose `Get` returns a nil error and a nil connection. -/
def getNothing : Answer := { getErr := none, conn := none, writeErr := none }

/-! ### The shape of one pass and of the loop -/

/-- A pass through the loop body is one of three: `Get` took the failure branch;
the write failed and the connection was evicted; the write succeeded, the
connection was released and the loop was left. -/
theorem sendPass_cases {W S P : Type} (env : Env W S P) (msg : Message) (self : ApnsClient W S) :
    (∃ err conn, (err ≠ none ∨ conn = none) ∧
        (sendPass env msg self).events = [Event.get err conn] ∧
        (sendPass env msg self).done = false ∧
        (sendPass env msg self).sendError = err ∧
        (sendPass env msg self).self.storage = self.storage ∧
        (sendPass env msg self).self.sendCounter = self.sendCounter ∧
        (sendPass env msg self).self.failCounter = self.failCounter) ∨
    (∃ conn e releaseErr,
        (sendPass env msg self).events = Event.get none (some conn) ::
          recordEvents env msg self.storage ++
            [Event.write conn msg (some e), Event.releaseBroken conn releaseErr] ∧
        (sendPass env msg self).done = false ∧
        (sendPass env msg self).sendError = some e ∧
        (sendPass env msg self).self.storage = recordMessage env msg self.storage ∧
        (sendPass env msg self).self.sendCounter = self.sendCounter.Incr 1 ∧
        (sendPass env msg self).self.failCounter = self.failCounter.Incr 1) ∨
    (∃ conn,
        (sendPass env msg self).events = Event.get none (some conn) ::
          recordEvents env msg self.storage ++ [Event.write conn msg none, Event.release conn] ∧
        (sendPass env msg self).done = true ∧
        (sendPass env msg self).sendError = none ∧
        (sendPass env msg self).self.storage = recordMessage env msg self.storage ∧
        (sendPass env msg self).self.sendCounter = self.sendCounter.Incr 1 ∧
        (sendPass env msg self).self.failCounter = self.failCounter) := by
  unfold sendPass
  rcases hg : env.factory.Get self.world with ⟨⟨err, conn⟩, w1⟩
  cases err with
  | some e => left; exact ⟨some e, conn, by simp⟩
  | none =>
    cases conn with
    | none => left; exact ⟨none, none, by simp⟩
    | some c =>
      right
      rcases hw : env.connSendMessage c msg w1 with ⟨r, w2⟩
      cases r with
      | some e =>
        left
        rcases hr : env.factory.ReleaseBroken c w2 with ⟨releaseErr, w3⟩
        exact ⟨c, e, releaseErr, by simp [hw, hr]⟩
      | none => right; exact ⟨c, by simp [hw]⟩

theorem sendLoop_zero {W S P : Type} (env : Env W S P) (msg : Message)
    (sendError : Option GoError) (self : ApnsClient W S) :
    sendLoop env msg 0 sendError self = { err := sendError, self := self, trace := [] } := rfl

theorem sendLoop_done {W S P : Type} (env : Env W S P) (msg : Message) (n : Nat)
    (sendError : Option GoError) (self : ApnsClient W S)
    (h : (sendPass env msg self).done = true) :
    sendLoop env msg (n + 1) sendError self =
      { err := (sendPass env msg self).sendError, self := (sendPass env msg self).self,
        trace := (sendPass env msg self).events } := by
  simp [sendLoop, h]

theorem sendLoop_continue {W S P : Type} (env : Env W S P) (msg : Message) (n : Nat)
    (sendError : Option GoError) (self : ApnsClient W S)
    (h : (sendPass env msg self).done = false) :
    sendLoop env msg (n + 1) sendError self =
      { err := (sendLoop env msg n (sendPass env msg self).sendError
                  (sendPass env msg self).self).err,
        self := (sendLoop env msg n (sendPass env msg self).sendError
                  (sendPass env msg self).self).self,
        trace := (sendPass env msg self).events ++
          (sendLoop env msg n (sendPass env msg self).sendError
            (sendPass env msg self).self).trace } := by
  simp [sendLoop, h]

theorem recordEvents_cases {W S P : Type} (env : Env W S P) (msg : Message) (storage : Option S) :
    recordEvents env msg storage = [] ∨
      recordEvents env msg storage = [Event.insert (env.UmarshalIdentifier msg) msg] := by
  unfold recordEvents
  cases storage with
  | none => simp
  | some s => by_cases h : msg.MsgType = MessageType.MESSAGE_TYPE_ENHANCED <;> simp [h]

theorem isGetFail_of_guard (err : Option GoError) (conn : Option IConn)
    (h : err ≠ none ∨ conn = none) : (Event.get err conn).isGetFail = true := by
  cases err with
  | some e => rfl
  | none =>
    cases conn with
    | none => rfl
    | some c => simp at h

theorem isAcquire_of_guard (err : Option GoError) (conn : Option IConn)
    (h : err ≠ none ∨ conn = none) : (Event.get err conn).isAcquire = false := by
  cases err with
  | some e => rfl
  | none =>
    cases conn with
    | none => rfl
    | some c => simp at h

/-- The counts of a run of the loop with `n` passes to go. -/
theorem sendLoop_counts {W S P : Type} (env : Env W S P) (msg : Message) :
    ∀ (n : Nat) (sendError : Option GoError) (self : ApnsClient W S),
      (sendLoop env msg n sendError self).trace.countP Event.isGet ≤ n ∧
      (sendLoop env msg n sendError self).trace.countP Event.isWrite +
          (sendLoop env msg n sendError self).trace.countP Event.isGetFail =
        (sendLoop env msg n sendError self).trace.countP Event.isGet ∧
      (sendLoop env msg n sendError self).trace.countP Event.isAcquire =
        (sendLoop env msg n sendError self).trace.countP Event.isWrite ∧
      (sendLoop env msg n sendError self).trace.countP Event.isWriteFail ≤
        (sendLoop env msg n sendError self).trace.countP Event.isWrite ∧
      (sendLoop env msg n sendError self).self.sendCounter.total =
        self.sendCounter.total +
          (sendLoop env msg n sendError self).trace.countP Event.isWrite ∧
      (sendLoop env msg n sendError self).self.failCounter.total =
        self.failCounter.total +
          (sendLoop env msg n sendError self).trace.countP Event.isWriteFail := by
  intro n
  induction n with
  | zero => intro sendError self; simp [sendLoop_zero]
  | succ n ih =>
    intro sendError self
    rcases sendPass_cases env msg self with
      ⟨err, conn, hg, hev, hd, -, -, hsc, hfc⟩ | ⟨conn, e, rr, hev, hd, -, -, hsc, hfc⟩ |
      ⟨conn, hev, hd, -, -, hsc, hfc⟩
    · obtain ⟨h1, h2, h3, h4, h5, h6⟩ :=
        ih (sendPass env msg self).sendError (sendPass env msg self).self
      rw [sendLoop_continue env msg n sendError self hd]
      simp only [hev, List.singleton_append, List.countP_cons, Event.isGet, Event.isWrite,
        Event.isWriteFail, isGetFail_of_guard err conn hg, isAcquire_of_guard err conn hg]
      rw [hsc] at h5
      rw [hfc] at h6
      simp
      omega
    · obtain ⟨h1, h2, h3, h4, h5, h6⟩ :=
        ih (sendPass env msg self).sendError (sendPass env msg self).self
      rw [sendLoop_continue env msg n sendError self hd]
      simp only [hsc, hfc, Counter.Incr] at h5 h6
      rcases recordEvents_cases env msg self.storage with hr | hr <;>
        simp [hev, hr, List.countP_cons, Event.isGet, Event.isWrite, Event.isWriteFail,
          Event.isGetFail, Event.isAcquire] <;> omega
    · rw [sendLoop_done env msg n sendError self hd]
      rcases recordEvents_cases env msg self.storage with hr | hr <;>
        simp [hev, hr, hsc, hfc, Counter.Incr, List.countP_cons, Event.isGet, Event.isWrite,
          Event.isWriteFail, Event.isGetFail, Event.isAcquire]

/-- C1: one call of `sendMessage` makes at most 3 attempts, whatever the message,
the pool and the connections do: it calls `factory.Get` at most 3 times and writes
to a connection at most 3 times; every `Get` is followed by a write or took the
failure branch, so the attempts whose `Get` failed and the writes together number
at most 3 (a failed `Get` uses up one of the three attempts). -/
theorem sendMessage_at_most_three_attempts {W S P : Type} (env : Env W S P)
    (self : ApnsClient W S) (msg : Message) :
    (sendMessage env self msg).trace.countP Event.isGet ≤ 3 ∧
    (sendMessage env self msg).trace.countP Event.isWrite ≤ 3 ∧
    (sendMessage env self msg).trace.countP Event.isWrite +
        (sendMessage env self msg).trace.countP Event.isGetFail =
      (sendMessage env self msg).trace.countP Event.isGet ∧
    (sendMessage env self msg).trace.countP Event.isWrite +
        (sendMessage env self msg).trace.countP Event.isGetFail ≤ 3 := by
  obtain ⟨h1, h2, -, -, -, -⟩ := sendLoop_counts env msg 3 none self
  unfold sendMessage
  omega

/-- C9: one call of `sendMessage` raises `sendCounter` by exactly the number of
writes made, which is the number of attempts that acquired a connection, and
raises `failCounter` by exactly the number of writes that returned an error; so
the rise of `failCounter` is at most that of `sendCounter`, which is at most 3,
and an attempt whose `Get` failed changes neither counter. -/
theorem sendMessage_counters {W S P : Type} (env : Env W S P)
    (self : ApnsClient W S) (msg : Message) :
    (sendMessage env self msg).self.sendCounter.total =
      self.sendCounter.total + (sendMessage env self msg).trace.countP Event.isWrite ∧
    (sendMessage env self msg).self.failCounter.total =
      self.failCounter.total + (sendMessage env self msg).trace.countP Event.isWriteFail ∧
    (sendMessage env self msg).trace.countP Event.isWrite =
      (sendMessage env self msg).trace.countP Event.isAcquire ∧
    (sendMessage env self msg).trace.countP Event.isWriteFail ≤
      (sendMessage env self msg).trace.countP Event.isWrite ∧
    (sendMessage env self msg).trace.countP Event.isWrite ≤ 3 := by
  obtain ⟨h1, h2, h3, h4, h5, h6⟩ := sendLoop_counts env msg 3 none self
  unfold sendMessage
  refine ⟨h5, h6, h3.symm, h4, ?_⟩
  omega

/-! ### The pool state behind a trace -/

theorem replay_append {W S P : Type} (env : Env W S P) (xs ys : List Event) :
    ∀ w : W, replay env w (xs ++ ys) = (replay env w xs).bind (fun w2 => replay env w2 ys) := by
  induction xs with
  | nil => intro w; simp [replay]
  | cons x xs ih =>
    intro w
    cases x with
    | get err conn =>
      by_cases h : (env.factory.Get w).1 = (err, conn) <;> simp [replay, h, ih]
    | insert id m => simp [replay, ih]
    | write c m r =>
      by_cases h : (env.connSendMessage c m w).1 = r <;> simp [replay, h, ih]
    | releaseBroken c r =>
      by_cases h : (env.factory.ReleaseBroken c w).1 = r <;> simp [replay, h, ih]
    | release c => simp [replay, ih]

theorem replay_recordEvents {W S P : Type} (env : Env W S P) (msg : Message)
    (storage : Option S) (w : W) : replay env w (recordEvents env msg storage) = some w := by
  rcases recordEvents_cases env msg storage with hr | hr <;> simp [hr, replay]

/-- The calls recorded by a pass are the calls it made: replayed from the pool
state before the pass they return what was recorded and end in the pool state
the pass leaves. -/
theorem replay_pass {W S P : Type} (env : Env W S P) (msg : Message) (self : ApnsClient W S) :
    replay env self.world (sendPass env msg self).events =
      some (sendPass env msg self).self.world := by
  unfold sendPass
  rcases hg : env.factory.Get self.world with ⟨⟨err, conn⟩, w1⟩
  cases err with
  | some e => simp [replay, hg]
  | none =>
    cases conn with
    | none => simp [replay, hg]
    | some c =>
      rcases hw : env.connSendMessage c msg w1 with ⟨r, w2⟩
      cases r with
      | some e =>
        rcases hr : env.factory.ReleaseBroken c w2 with ⟨releaseErr, w3⟩
        simp [replay, hg, hw, hr, replay_append, replay_recordEvents]
      | none => simp [replay, hg, hw, replay_append, replay_recordEvents]

/-- The calls recorded by a run of the loop are the calls it made. -/
theorem replay_sendLoop {W S P : Type} (env : Env W S P) (msg : Message) :
    ∀ (n : Nat) (sendError : Option GoError) (self : ApnsClient W S),
      replay env self.world (sendLoop env msg n sendError self).trace =
        some (sendLoop env msg n sendError self).self.world := by
  intro n
  induction n with
  | zero => intro sendError self; rfl
  | succ n ih =>
    intro sendError self
    cases hd : (sendPass env msg self).done with
    | true =>
      rw [sendLoop_done env msg n sendError self hd]
      exact replay_pass env msg self
    | false =>
      rw [sendLoop_continue env msg n sendError self hd]
      simp only [replay_append, replay_pass, Option.some_bind]
      exact ih _ _

/-! ### Locating an event in a trace -/

/-- An event that is not among the first events of a trace lies in the rest. -/
theorem split_of_not_mem {α : Type} (e : α) (ys post : List α) :
    ∀ (xs pre : List α), xs ++ ys = pre ++ e :: post → e ∉ xs →
      ∃ mid, pre = xs ++ mid ∧ ys = mid ++ e :: post := by
  intro xs
  induction xs with
  | nil => intro pre h _; exact ⟨pre, by simp, by simpa using h⟩
  | cons x xs ih =>
    intro pre h hn
    cases pre with
    | nil =>
      simp only [List.cons_append, List.nil_append, List.cons.injEq] at h
      exact absurd (by simp [h.1]) hn
    | cons p pre =>
      simp only [List.cons_append, List.cons.injEq] at h
      obtain ⟨mid, h1, h2⟩ := ih pre h.2 (fun hm => hn (List.mem_cons_of_mem _ hm))
      exact ⟨mid, by simp [h.1, h1], h2⟩

/-- An event found in a two-event list is the first one, unless it is the second. -/
theorem split_pair {α : Type} (e a b : α) (mid post : List α)
    (h : [a, b] = mid ++ e :: post) (hb : e ≠ b) : mid = [] ∧ e = a ∧ post = [b] := by
  cases mid with
  | nil =>
    simp only [List.nil_append, List.cons.injEq] at h
    exact ⟨rfl, h.1.symm, h.2.symm⟩
  | cons m mid =>
    cases mid with
    | nil =>
      simp only [List.cons_append, List.nil_append, List.cons.injEq] at h
      exact absurd h.2.1.symm hb
    | cons m2 mid => simp at h

/-- A successful write is not among the events of a pass before its write. -/
theorem writeOk_not_mem_head {W S P : Type} (env : Env W S P) (msg : Message)
    (storage : Option S) (conn c : IConn) (m : Message) :
    Event.write c m none ∉ Event.get none (some conn) :: recordEvents env msg storage := by
  rcases recordEvents_cases env msg storage with hr | hr <;> simp [hr]

/-- A write that succeeded ends the run of the loop: it is followed by the
`Release` of its connection and by nothing else, it is the only `Release` of the
run, and the run returns nil. -/
theorem sendLoop_success {W S P : Type} (env : Env W S P) (msg : Message) :
    ∀ (n : Nat) (sendError : Option GoError) (self : ApnsClient W S)
      (pre post : List Event) (conn : IConn) (m : Message),
      (sendLoop env msg n sendError self).trace = pre ++ Event.write conn m none :: post →
        post = [Event.release conn] ∧ m = msg ∧
        (sendLoop env msg n sendError self).err = none ∧
        (sendLoop env msg n sendError self).trace.countP Event.isRelease = 1 := by
  intro n
  induction n with
  | zero => intro sendError self pre post conn m h; simp [sendLoop_zero] at h
  | succ n ih =>
    intro sendError self pre post conn m h
    rcases sendPass_cases env msg self with
      ⟨err, c, -, hev, hd, -, -, -, -⟩ | ⟨c, e, rr, hev, hd, -, -, -, -⟩ |
      ⟨c, hev, hd, hse, -, -, -⟩
    · rw [sendLoop_continue env msg n sendError self hd] at h ⊢
      simp only [hev] at h ⊢
      obtain ⟨mid, -, h2⟩ := split_of_not_mem _ _ _ _ _ h (by simp)
      obtain ⟨h3, h4, h5, h6⟩ := ih _ _ _ _ _ _ h2
      exact ⟨h3, h4, h5, by simpa [List.countP_cons, Event.isRelease] using h6⟩
    · rw [sendLoop_continue env msg n sendError self hd] at h ⊢
      simp only [hev] at h ⊢
      obtain ⟨mid, -, h2⟩ := split_of_not_mem _ _ _ _ _ h (by
        rcases recordEvents_cases env msg self.storage with hr | hr <;> simp [hr])
      obtain ⟨h3, h4, h5, h6⟩ := ih _ _ _ _ _ _ h2
      refine ⟨h3, h4, h5, ?_⟩
      rcases recordEvents_cases env msg self.storage with hr | hr <;>
        simpa [hr, List.countP_cons, Event.isRelease] using h6
    · rw [sendLoop_done env msg n sendError self hd] at h ⊢
      simp only [hev, hse] at h ⊢
      obtain ⟨mid, -, h2⟩ := split_of_not_mem _ _ _ _ _ h
        (writeOk_not_mem_head env msg self.storage c conn m)
      obtain ⟨-, h4, h5⟩ := split_pair _ _ _ _ _ h2 (by simp)
      simp only [Event.write.injEq] at h4
      refine ⟨by rw [h5, h4.1], h4.2.1, trivial, ?_⟩
      rcases recordEvents_cases env msg self.storage with hr | hr <;>
        simp [hr, List.countP_cons, Event.isRelease]

/-- C3: if in a call of `sendMessage` a write on an acquired connection succeeds
(the trace holds a write on `conn` that returned nil, after whatever earlier
attempts `pre`), then that write is followed by `factory.Release(conn)` and by
nothing else (no further `Get`, no further write), `Release` is called exactly
once in the whole call, the message written is the one passed in, and the call
returns nil.  The `Release` is really made on the pool: `pre` and the write,
made from the pool state before the call, return what the trace records and
reach a pool state `w2`, and the pool state the call leaves is the one
`factory.Release conn` returns at `w2`. -/
theorem sendMessage_success_releases_and_stops {W S P : Type} (env : Env W S P)
    (self : ApnsClient W S) (msg : Message) (pre post : List Event) (conn : IConn) (m : Message)
    (h : (sendMessage env self msg).trace = pre ++ Event.write conn m none :: post) :
    post = [Event.release conn] ∧ m = msg ∧
    (sendMessage env self msg).err = none ∧
    (sendMessage env self msg).trace.countP Event.isRelease = 1 ∧
    (sendMessage env self msg).trace.count (Event.release conn) = 1 ∧
    ∃ w2, replay env self.world (pre ++ [Event.write conn m none]) = some w2 ∧
      (sendMessage env self msg).self.world = (env.factory.Release conn w2).2 := by
  obtain ⟨h1, h2, h3, h4⟩ := sendLoop_success env msg 3 none self pre post conn m h
  refine ⟨h1, h2, h3, h4, ?_, ?_⟩
  · have hle : (sendMessage env self msg).trace.count (Event.release conn) ≤ 1 := by
      have := List.countP_mono_left (l := (sendMessage env self msg).trace)
        (p := fun e => e == Event.release conn) (q := Event.isRelease)
        (by intro e _ he; simp at he; simp [he, Event.isRelease])
      unfold sendMessage at this ⊢
      rw [h4] at this
      exact this
    have hge : 0 < (sendMessage env self msg).trace.count (Event.release conn) := by
      rw [List.count_pos_iff, h, h1]
      simp
    omega
  · have hr := replay_sendLoop env msg 3 none self
    unfold sendMessage at h ⊢
    rw [h, h1, List.append_cons, replay_append] at hr
    cases hrep : replay env self.world (pre ++ [Event.write conn m none]) with
    | none => simp [hrep] at hr
    | some w2 =>
      refine ⟨w2, rfl, ?_⟩
      simp only [hrep, Option.some_bind, replay, Option.some.injEq] at hr
      exact hr.symm

/-! ### The error a run returns -/

theorem attemptErrors_append (xs ys : List Event) :
    attemptErrors (xs ++ ys) = attemptErrors xs ++ attemptErrors ys := by
  induction xs with
  | nil => simp [attemptErrors]
  | cons x xs ih =>
    cases x with
    | get err conn =>
      cases err with
      | some e => simp [attemptErrors, ih]
      | none =>
        cases conn with
        | none => simp [attemptErrors, ih]
        | some c => simp [attemptErrors, ih]
    | insert id m => simp [attemptErrors, ih]
    | write c m r => simp [attemptErrors, ih]
    | releaseBroken c r => simp [attemptErrors, ih]
    | release c => simp [attemptErrors, ih]

theorem attemptErrors_getFail (err : Option GoError) (conn : Option IConn)
    (h : err ≠ none ∨ conn = none) : attemptErrors [Event.get err conn] = [err] := by
  cases err with
  | some e => simp [attemptErrors]
  | none =>
    cases conn with
    | none => simp [attemptErrors]
    | some c => simp at h

theorem attemptErrors_written {W S P : Type} (env : Env W S P) (msg : Message)
    (storage : Option S) (conn : IConn) (r : Option GoError) (last : Event)
    (hl : attemptErrors [last] = []) :
    attemptErrors (Event.get none (some conn) :: recordEvents env msg storage ++
      [Event.write conn msg r, last]) = [r] := by
  have h2 : [Event.write conn msg r, last] = [Event.write conn msg r] ++ [last] := rfl
  rw [h2, ← List.append_assoc, attemptErrors_append, hl]
  rcases recordEvents_cases env msg storage with hr | hr <;> simp [hr, attemptErrors]

/-- Each pass contributes one attempt error: the value it leaves in `sendError`. -/
theorem attemptErrors_pass {W S P : Type} (env : Env W S P) (msg : Message)
    (self : ApnsClient W S) :
    attemptErrors (sendPass env msg self).events = [(sendPass env msg self).sendError] := by
  rcases sendPass_cases env msg self with
    ⟨err, c, hg, hev, -, hse, -, -, -⟩ | ⟨c, e, rr, hev, -, hse, -, -, -⟩ |
    ⟨c, hev, -, hse, -, -, -⟩
  · rw [hev, hse, attemptErrors_getFail err c hg]
  · rw [hev, hse, attemptErrors_written env msg self.storage c (some e) _ (by simp [attemptErrors])]
  · rw [hev, hse, attemptErrors_written env msg self.storage c none _ (by simp [attemptErrors])]

/-- The last events of a pass that did not leave the loop. -/
theorem sendPass_tail {W S P : Type} (env : Env W S P) (msg : Message)
    (self : ApnsClient W S) (hd : (sendPass env msg self).done = false) :
    (∃ pre err conn, (sendPass env msg self).events = pre ++ [Event.get err conn] ∧
        (Event.get err conn).isGetFail = true ∧ (sendPass env msg self).sendError = err) ∨
    (∃ pre conn e releaseErr, (sendPass env msg self).events =
        pre ++ [Event.write conn msg (some e), Event.releaseBroken conn releaseErr] ∧
        (sendPass env msg self).sendError = some e) := by
  rcases sendPass_cases env msg self with
    ⟨err, c, hg, hev, -, hse, -, -, -⟩ | ⟨c, e, rr, hev, -, hse, -, -, -⟩ |
    ⟨c, -, hd2, -, -, -, -⟩
  · exact Or.inl ⟨[], err, c, by rw [hev]; rfl, isGetFail_of_guard err c hg, hse⟩
  · exact Or.inr ⟨_, c, e, rr, hev, hse⟩
  · rw [hd] at hd2
    cases hd2

/-- A pass that left the loop left nil in `sendError`. -/
theorem sendPass_done_nil {W S P : Type} (env : Env W S P) (msg : Message)
    (self : ApnsClient W S) (hd : (sendPass env msg self).done = true) :
    (sendPass env msg self).sendError = none := by
  rcases sendPass_cases env msg self with
    ⟨err, c, -, -, hd2, -, -, -, -⟩ | ⟨c, e, rr, -, hd2, -, -, -, -⟩ |
    ⟨c, -, -, hse, -, -, -⟩
  · rw [hd] at hd2
    cases hd2
  · rw [hd] at hd2
    cases hd2
  · exact hse

/-- A run of `n + 1` passes in which every attempt ended with an error makes all
its passes and returns the error of the last one. -/
theorem sendLoop_all_fail {W S P : Type} (env : Env W S P) (msg : Message) :
    ∀ (n : Nat) (sendError : Option GoError) (self : ApnsClient W S),
      (∀ e ∈ attemptErrors (sendLoop env msg (n + 1) sendError self).trace, e ≠ none) →
      ∃ init, init.length = n ∧
        attemptErrors (sendLoop env msg (n + 1) sendError self).trace =
          init ++ [(sendLoop env msg (n + 1) sendError self).err] ∧
        ((∃ pre err conn, (sendLoop env msg (n + 1) sendError self).trace =
              pre ++ [Event.get err conn] ∧ (Event.get err conn).isGetFail = true ∧
              (sendLoop env msg (n + 1) sendError self).err = err) ∨
         (∃ pre conn e releaseErr, (sendLoop env msg (n + 1) sendError self).trace =
              pre ++ [Event.write conn msg (some e), Event.releaseBroken conn releaseErr] ∧
              (sendLoop env msg (n + 1) sendError self).err = some e)) := by
  intro n
  induction n with
  | zero =>
    intro sendError self h
    cases hd : (sendPass env msg self).done with
    | true =>
      rw [sendLoop_done env msg 0 sendError self hd] at h
      simp only [attemptErrors_pass, sendPass_done_nil env msg self hd] at h
      simp at h
    | false =>
      rw [sendLoop_continue env msg 0 sendError self hd]
      simp only [sendLoop_zero, List.append_nil]
      exact ⟨[], rfl, by rw [attemptErrors_pass]; rfl, sendPass_tail env msg self hd⟩
  | succ n ih =>
    intro sendError self h
    cases hd : (sendPass env msg self).done with
    | true =>
      rw [sendLoop_done env msg (n + 1) sendError self hd] at h
      simp only [attemptErrors_pass, sendPass_done_nil env msg self hd] at h
      simp at h
    | false =>
      rw [sendLoop_continue env msg (n + 1) sendError self hd] at h ⊢
      simp only [attemptErrors_append, attemptErrors_pass] at h ⊢
      obtain ⟨init, h1, h2, h3⟩ := ih _ _ (fun e he => h e (List.mem_append_right _ he))
      refine ⟨(sendPass env msg self).sendError :: init, by simp [h1], by rw [h2]; rfl, ?_⟩
      rcases h3 with ⟨pre, err2, c2, h4, h5, h6⟩ | ⟨pre, c2, e2, rr2, h4, h6⟩
      · exact Or.inl ⟨(sendPass env msg self).events ++ pre, err2, c2,
          by rw [h4, List.append_assoc], h5, h6⟩
      · exact Or.inr ⟨(sendPass env msg self).events ++ pre, c2, e2, rr2,
          by rw [h4, List.append_assoc], h6⟩

/-- C2: if every attempt of a call of `sendMessage` failed with an error (each
`Get` that took the failure branch returned a non-nil error and each write
returned a non-nil error), then the call made three attempts and returns
exactly the error of the third, which is non-nil: the error of the last `Get`
when the trace ends with a failed `Get`, otherwise the error of the last write. -/
theorem sendMessage_returns_third_error {W S P : Type} (env : Env W S P)
    (self : ApnsClient W S) (msg : Message)
    (hfail : (attemptErrors (sendMessage env self msg).trace).all (fun e => e.isSome) = true) :
    (∃ e1 e2 e3, attemptErrors (sendMessage env self msg).trace = [e1, e2, some e3] ∧
      (sendMessage env self msg).err = some e3) ∧
    ((∃ pre err conn, (sendMessage env self msg).trace = pre ++ [Event.get err conn] ∧
        (Event.get err conn).isGetFail = true ∧ (sendMessage env self msg).err = err) ∨
     (∃ pre conn e releaseErr, (sendMessage env self msg).trace =
        pre ++ [Event.write conn msg (some e), Event.releaseBroken conn releaseErr] ∧
        (sendMessage env self msg).err = some e)) := by
  have h : ∀ e ∈ attemptErrors (sendMessage env self msg).trace, e ≠ none := by
    intro e he
    have := List.all_eq_true.mp hfail e he
    intro hn
    rw [hn] at this
    cases this
  obtain ⟨init, h1, h2, h3⟩ := sendLoop_all_fail env msg 2 none self h
  refine ⟨?_, h3⟩
  match init, h1 with
  | [e1, e2], _ =>
    have h4 := h (sendMessage env self msg).err (by
      unfold sendMessage
      rw [h2]
      simp)
    obtain ⟨e3, h5⟩ := Option.ne_none_iff_exists'.mp h4
    refine ⟨e1, e2, e3, ?_, h5⟩
    unfold sendMessage at h5 ⊢
    rw [h2, h5]
    rfl

/-! ### Ownership of the connections -/

theorem Held.run_append (xs ys : List Event) :
    ∀ h : Held, Held.run h (xs ++ ys) = (Held.run h xs).bind (fun h2 => Held.run h2 ys) := by
  induction xs with
  | nil => intro h; simp [Held.run]
  | cons x xs ih =>
    intro h
    cases hs : h.step x with
    | none => simp [Held.run, hs]
    | some h2 => simp [Held.run, hs, ih]

theorem Held.run_recordEvents {W S P : Type} (env : Env W S P) (msg : Message)
    (storage : Option S) (h : Held) : Held.run h (recordEvents env msg storage) = some h := by
  rcases recordEvents_cases env msg storage with hr | hr
  · rw [hr]
    rfl
  · rw [hr]
    cases h <;> simp [Held.run, Held.step]

/-- Each pass starts and ends holding no connection and respects the discipline. -/
theorem Held.run_pass {W S P : Type} (env : Env W S P) (msg : Message) (self : ApnsClient W S) :
    Held.run Held.nothing (sendPass env msg self).events = some Held.nothing := by
  rcases sendPass_cases env msg self with
    ⟨err, c, hg, hev, -, -, -, -, -⟩ | ⟨c, e, rr, hev, -, -, -, -, -⟩ |
    ⟨c, hev, -, -, -, -, -⟩
  · rw [hev]
    cases err with
    | some e => rfl
    | none =>
      cases c with
      | none => rfl
      | some c => simp at hg
  · rw [hev, List.cons_append, Held.run]
    simp only [Held.step]
    rw [Held.run_append, Held.run_recordEvents]
    simp [Held.run, Held.step]
  · rw [hev, List.cons_append, Held.run]
    simp only [Held.step]
    rw [Held.run_append, Held.run_recordEvents]
    simp [Held.run, Held.step]

theorem Held.run_sendLoop {W S P : Type} (env : Env W S P) (msg : Message) :
    ∀ (n : Nat) (sendError : Option GoError) (self : ApnsClient W S),
      Held.run Held.nothing (sendLoop env msg n sendError self).trace = some Held.nothing := by
  intro n
  induction n with
  | zero => intro sendError self; rfl
  | succ n ih =>
    intro sendError self
    cases hd : (sendPass env msg self).done with
    | true =>
      rw [sendLoop_done env msg n sendError self hd]
      exact Held.run_pass env msg self
    | false =>
      rw [sendLoop_continue env msg n sendError self hd]
      simp only [Held.run_append, Held.run_pass, Option.some_bind]
      exact ih _ _

/-- Per connection, the acquisitions of a run are as many as its writes, the
releases as many as the writes that succeeded, and the evictions as many as the
writes that failed. -/
theorem sendLoop_conn_counts {W S P : Type} (env : Env W S P) (msg : Message) (c : IConn) :
    ∀ (n : Nat) (sendError : Option GoError) (self : ApnsClient W S),
      (sendLoop env msg n sendError self).trace.countP (fun e => e.isAcquire && e.onConn c) =
        (sendLoop env msg n sendError self).trace.countP (fun e => e.isWrite && e.onConn c) ∧
      (sendLoop env msg n sendError self).trace.countP (fun e => e.isRelease && e.onConn c) =
        (sendLoop env msg n sendError self).trace.countP (fun e => e.isWriteOk && e.onConn c) ∧
      (sendLoop env msg n sendError self).trace.countP
          (fun e => e.isReleaseBroken && e.onConn c) =
        (sendLoop env msg n sendError self).trace.countP (fun e => e.isWriteFail && e.onConn c) := by
  intro n
  induction n with
  | zero => intro sendError self; simp [sendLoop_zero]
  | succ n ih =>
    intro sendError self
    rcases sendPass_cases env msg self with
      ⟨err, conn, hg, hev, hd, -, -, -, -⟩ | ⟨conn, e, rr, hev, hd, -, -, -, -⟩ |
      ⟨conn, hev, hd, -, -, -, -⟩
    · obtain ⟨h1, h2, h3⟩ := ih (sendPass env msg self).sendError (sendPass env msg self).self
      rw [sendLoop_continue env msg n sendError self hd]
      simp only [hev, List.countP_append, List.countP_cons, List.countP_nil]
      rw [h1, h2, h3]
      have ha := isAcquire_of_guard err conn hg
      simp [ha, Event.isWrite, Event.isRelease, Event.isWriteOk, Event.isReleaseBroken,
        Event.isWriteFail]
    · obtain ⟨h1, h2, h3⟩ := ih (sendPass env msg self).sendError (sendPass env msg self).self
      rw [sendLoop_continue env msg n sendError self hd]
      rcases recordEvents_cases env msg self.storage with hr | hr <;>
        by_cases hc : conn = c <;>
        simp only [hev, hr, List.countP_append, List.countP_cons, List.countP_nil] <;>
        rw [h1, h2, h3] <;>
        simp [hc, Event.isWrite, Event.isRelease, Event.isWriteOk,
          Event.isReleaseBroken, Event.isWriteFail, Event.isAcquire, Event.onConn]
    · rw [sendLoop_done env msg n sendError self hd]
      rcases recordEvents_cases env msg self.storage with hr | hr <;>
        by_cases hc : conn = c <;>
        simp [hev, hr, hc, List.countP_cons, Event.isWrite, Event.isRelease, Event.isWriteOk,
          Event.isReleaseBroken, Event.isWriteFail, Event.isAcquire, Event.onConn]

/-- C7 as stated fails: a pool whose `Get` returns the error "busy" together
with connection 5.  The guard of line 109 takes the failure branch, so in the
three attempts connection 5 is returned three times and never handed back: the
call makes no `Release` and no `ReleaseBroken`, the pool has received nothing
under `idle` or `broken`, and the call returns "busy". -/
theorem sendMessage_drops_connection_returned_with_error :
    (sendMessage scripted
      (scriptedClient [getBoth "busy" 5, getBoth "busy" 5, getBoth "busy" 5])
      sampleMessage).trace =
      [Event.get (some "busy") (some 5), Event.get (some "busy") (some 5),
        Event.get (some "busy") (some 5)] ∧
    (sendMessage scripted
      (scriptedClient [getBoth "busy" 5, getBoth "busy" 5, getBoth "busy" 5])
      sampleMessage).trace.countP (Event.returnsConn 5) = 3 ∧
    (sendMessage scripted
      (scriptedClient [getBoth "busy" 5, getBoth "busy" 5, getBoth "busy" 5])
      sampleMessage).trace.countP Event.isHandBack = 0 ∧
    (sendMessage scripted
      (scriptedClient [getBoth "busy" 5, getBoth "busy" 5, getBoth "busy" 5])
      sampleMessage).self.world = { script := [], idle := [], broken := [] } ∧
    (sendMessage scripted
      (scriptedClient [getBoth "busy" 5, getBoth "busy" 5, getBoth "busy" 5])
      sampleMessage).err = some "busy" := by
  decide

/-- C7, amended: within one call of `sendMessage` every connection acquired from
a `factory.Get` that returned a nil error and a non-nil connection is handed
back to the pool exactly once before the call returns.  The trace respects the
ownership discipline of `Held.step` and ends holding nothing: a `Get` is made
only while no connection is held, the held connection is written to once, then
handed back by `ReleaseBroken` if that write failed and by `Release` if it
succeeded.  Per connection, the acquisitions are as many as the writes, the
`Release` calls as many as the successful writes and the `ReleaseBroken` calls
as many as the failed writes.  The hand-backs are really made on the pool: the
pool state the call leaves is the one reached by making every recorded `Get`,
write, `ReleaseBroken` and `Release`, in order, from the pool state before the
call, each returning what the trace records. -/
theorem sendMessage_hands_back_every_connection {W S P : Type} (env : Env W S P)
    (self : ApnsClient W S) (msg : Message) :
    handedBack (sendMessage env self msg).trace = true ∧
    (∀ c : IConn,
      (sendMessage env self msg).trace.countP (fun e => e.isAcquire && e.onConn c) =
        (sendMessage env self msg).trace.countP (fun e => e.isWrite && e.onConn c) ∧
      (sendMessage env self msg).trace.countP (fun e => e.isRelease && e.onConn c) =
        (sendMessage env self msg).trace.countP (fun e => e.isWriteOk && e.onConn c) ∧
      (sendMessage env self msg).trace.countP (fun e => e.isReleaseBroken && e.onConn c) =
        (sendMessage env self msg).trace.countP (fun e => e.isWriteFail && e.onConn c)) ∧
    replay env self.world (sendMessage env self msg).trace =
      some (sendMessage env self msg).self.world := by
  refine ⟨?_, fun c => sendLoop_conn_counts env msg c 3 none self,
    replay_sendLoop env msg 3 none self⟩
  unfold handedBack sendMessage
  rw [Held.run_sendLoop]
  rfl

/-! ### The store -/

theorem recordEvents_enhanced {W S P : Type} (env : Env W S P) (msg : Message) (s : S)
    (he : msg.MsgType = MessageType.MESSAGE_TYPE_ENHANCED) :
    recordEvents env msg (some s) = [Event.insert (env.UmarshalIdentifier msg) msg] := by
  simp [recordEvents, he]

theorem recordMessage_enhanced {W S P : Type} (env : Env W S P) (msg : Message) (s : S)
    (he : msg.MsgType = MessageType.MESSAGE_TYPE_ENHANCED) :
    recordMessage env msg (some s) = some (env.Insert (env.UmarshalIdentifier msg) msg s) := by
  simp [recordMessage, he]

theorem recordEvents_skipped {W S P : Type} (env : Env W S P) (msg : Message)
    (storage : Option S)
    (h : storage = none ∨ msg.MsgType ≠ MessageType.MESSAGE_TYPE_ENHANCED) :
    recordEvents env msg storage = [] ∧ recordMessage env msg storage = storage := by
  cases storage with
  | none => exact ⟨rfl, rfl⟩
  | some s =>
    rcases h with h | h
    · cases h
    · simp [recordEvents, recordMessage, h]

/-- With a nil store, or for a message that is not Enhanced, a run makes no
`Insert` and leaves the store as it was. -/
theorem sendLoop_no_insert {W S P : Type} (env : Env W S P) (msg : Message) :
    ∀ (n : Nat) (sendError : Option GoError) (self : ApnsClient W S),
      (self.storage = none ∨ msg.MsgType ≠ MessageType.MESSAGE_TYPE_ENHANCED) →
      (sendLoop env msg n sendError self).trace.countP Event.isInsert = 0 ∧
      (sendLoop env msg n sendError self).self.storage = self.storage := by
  intro n
  induction n with
  | zero => intro sendError self _; simp [sendLoop_zero]
  | succ n ih =>
    intro sendError self h
    obtain ⟨hr, hm⟩ := recordEvents_skipped env msg self.storage h
    rcases sendPass_cases env msg self with
      ⟨err, conn, -, hev, hd, -, hst, -, -⟩ | ⟨conn, e, rr, hev, hd, -, hst, -, -⟩ |
      ⟨conn, hev, hd, -, hst, -, -⟩
    · obtain ⟨h1, h2⟩ := ih (sendPass env msg self).sendError (sendPass env msg self).self
        (by rw [hst]; exact h)
      rw [sendLoop_continue env msg n sendError self hd]
      simp only [hev, List.countP_append, h1, h2, hst]
      simp [Event.isInsert]
    · rw [hm] at hst
      obtain ⟨h1, h2⟩ := ih (sendPass env msg self).sendError (sendPass env msg self).self
        (by rw [hst]; exact h)
      rw [sendLoop_continue env msg n sendError self hd]
      simp only [hev, hr, List.countP_append, h1, h2, hst]
      simp [Event.isInsert]
    · rw [hm] at hst
      rw [sendLoop_done env msg n sendError self hd]
      simp only [hev, hr, hst]
      simp [Event.isInsert]

/-- Every write of a run writes the message passed in. -/
theorem sendLoop_writes_msg {W S P : Type} (env : Env W S P) (msg : Message) :
    ∀ (n : Nat) (sendError : Option GoError) (self : ApnsClient W S),
      ∀ e ∈ (sendLoop env msg n sendError self).trace, e.isWrite = true →
        ∃ conn r, e = Event.write conn msg r := by
  intro n
  induction n with
  | zero => intro sendError self e he; simp [sendLoop_zero] at he
  | succ n ih =>
    intro sendError self ev he hw
    rcases sendPass_cases env msg self with
      ⟨err, conn, -, hev, hd, -, -, -, -⟩ | ⟨conn, e, rr, hev, hd, -, -, -, -⟩ |
      ⟨conn, hev, hd, -, -, -, -⟩
    · rw [sendLoop_continue env msg n sendError self hd] at he
      simp only [hev, List.mem_append, List.mem_singleton] at he
      rcases he with he | he
      · rw [he] at hw
        cases hw
      · exact ih _ _ ev he hw
    · rw [sendLoop_continue env msg n sendError self hd] at he
      simp only [hev, List.mem_append] at he
      rcases he with he | he
      · rcases recordEvents_cases env msg self.storage with hr | hr <;>
          simp only [hr, List.mem_cons, List.mem_append, List.mem_singleton, List.not_mem_nil,
            or_false, false_or] at he <;>
          rcases he with he | he | he <;>
          first
            | exact ⟨conn, some e, he⟩
            | (rw [he] at hw; cases hw)
            | (rcases he with he | he <;> first
                | exact ⟨conn, some e, he⟩
                | (rw [he] at hw; cases hw))
      · exact ih _ _ ev he hw
    · rw [sendLoop_done env msg n sendError self hd] at he
      simp only [hev] at he
      rcases recordEvents_cases env msg self.storage with hr | hr <;>
        simp only [hr, List.mem_cons, List.mem_append, List.mem_singleton, List.not_mem_nil,
          or_false, false_or] at he <;>
        rcases he with he | he | he <;>
        first
          | exact ⟨conn, none, he⟩
          | (rw [he] at hw; cases hw)
          | (rcases he with he | he <;> first
              | exact ⟨conn, none, he⟩
              | (rw [he] at hw; cases hw))

/-- For an Enhanced message and a non-nil store, a run makes one `Insert` of the
message per acquisition, the store ends as that many `Insert`s applied to what
it was, and every write comes right after the `Get` that acquired its connection
and the `Insert` of the message. -/
theorem sendLoop_inserts {W S P : Type} (env : Env W S P) (msg : Message)
    (he : msg.MsgType = MessageType.MESSAGE_TYPE_ENHANCED) :
    ∀ (n : Nat) (sendError : Option GoError) (self : ApnsClient W S) (s : S),
      self.storage = some s →
      (sendLoop env msg n sendError self).trace.filter Event.isInsert =
        List.replicate ((sendLoop env msg n sendError self).trace.countP Event.isAcquire)
          (Event.insert (env.UmarshalIdentifier msg) msg) ∧
      (sendLoop env msg n sendError self).self.storage =
        some ((env.Insert (env.UmarshalIdentifier msg) msg)^[
          (sendLoop env msg n sendError self).trace.countP Event.isAcquire] s) ∧
      (∀ (pre post : List Event) (conn : IConn) (m : Message) (r : Option GoError),
        (sendLoop env msg n sendError self).trace = pre ++ Event.write conn m r :: post →
        ∃ before, pre = before ++
          [Event.get none (some conn), Event.insert (env.UmarshalIdentifier msg) msg]) := by
  intro n
  induction n with
  | zero =>
    intro sendError self s hs
    simp [sendLoop_zero, hs]
  | succ n ih =>
    intro sendError self s hs
    have hr := recordEvents_enhanced env msg s he
    have hm := recordMessage_enhanced env msg s he
    rcases sendPass_cases env msg self with
      ⟨err, conn, hg, hev, hd, -, hst, -, -⟩ | ⟨conn, e, rr, hev, hd, -, hst, -, -⟩ |
      ⟨conn, hev, hd, -, hst, -, -⟩
    · obtain ⟨h1, h2, h3⟩ := ih (sendPass env msg self).sendError (sendPass env msg self).self s
        (by rw [hst]; exact hs)
      rw [sendLoop_continue env msg n sendError self hd]
      simp only [hev, List.filter_append, List.countP_append, h1, h2]
      refine ⟨by simp [Event.isInsert, isAcquire_of_guard err conn hg],
        by simp [isAcquire_of_guard err conn hg], ?_⟩
      intro pre post c m r h
      obtain ⟨mid, h4, h5⟩ := split_of_not_mem _ _ _ _ _ h (by simp)
      obtain ⟨before, h6⟩ := h3 _ _ _ _ _ h5
      exact ⟨[Event.get err conn] ++ before, by rw [h4, h6, List.append_assoc]⟩
    · rw [hs, hm] at hst
      rw [hs, hr] at hev
      obtain ⟨h1, h2, h3⟩ := ih (sendPass env msg self).sendError (sendPass env msg self).self _ hst
      rw [sendLoop_continue env msg n sendError self hd]
      simp only [hev, List.filter_append, List.countP_append, h1, h2]
      refine ⟨by simp [Event.isInsert, Event.isAcquire, List.replicate_succ, Nat.add_comm],
        by simp [Event.isAcquire, Nat.add_comm, Function.iterate_succ_apply], ?_⟩
      intro pre post c m r h
      have h0 : [Event.get none (some conn), Event.insert (env.UmarshalIdentifier msg) msg] ++
          ([Event.write conn msg (some e), Event.releaseBroken conn rr] ++
            (sendLoop env msg n (sendPass env msg self).sendError (sendPass env msg self).self).trace)
          = pre ++ Event.write c m r :: post := by
        rw [← h]
        simp
      obtain ⟨mid, h4, h5⟩ := split_of_not_mem _ _ _ _ _ h0 (by simp)
      cases mid with
      | nil =>
        simp only [List.nil_append, List.cons_append, List.cons.injEq, Event.write.injEq] at h5
        exact ⟨[], by rw [h4, h5.1.1]; rfl⟩
      | cons w mid =>
        simp only [List.cons_append, List.nil_append, List.cons.injEq] at h5
        obtain ⟨mid2, h6, h7⟩ := split_of_not_mem (Event.write c m r) _ post
          [Event.releaseBroken conn rr] mid h5.2 (by simp)
        obtain ⟨before, h8⟩ := h3 _ _ _ _ _ h7
        refine ⟨[Event.get none (some conn), Event.insert (env.UmarshalIdentifier msg) msg] ++
          (w :: [Event.releaseBroken conn rr]) ++ before, ?_⟩
        rw [h4, h6, h8]
        simp
    · rw [hs, hm] at hst
      rw [hs, hr] at hev
      rw [sendLoop_done env msg n sendError self hd]
      simp only [hev, hst]
      refine ⟨by simp [Event.isInsert, Event.isAcquire],
        by simp [Event.isAcquire], ?_⟩
      intro pre post c m r h
      have h0 : [Event.get none (some conn), Event.insert (env.UmarshalIdentifier msg) msg] ++
          [Event.write conn msg none, Event.release conn]
          = pre ++ Event.write c m r :: post := h
      obtain ⟨mid, h4, h5⟩ := split_of_not_mem _ _ _ _ _ h0 (by simp)
      obtain ⟨h6, h7, -⟩ := split_pair _ _ _ _ _ h5 (by simp)
      simp only [Event.write.injEq] at h7
      exact ⟨[], by rw [h4, h6, h7.1]; rfl⟩

/-! ### The public calls -/

/-- C10: for an Enhanced message on a client with a non-nil store, one call of
`sendMessage` makes exactly one `storage.Insert` per attempt in which
`factory.Get` returned a connection (at most 3), each with the same identifier
`UmarshalIdentifier msg` and the same message, each right after that attempt's
`Get` and right before its write; the store ends as that many `Insert`s applied
to what it was.  So a send retried after a failed write inserts the same
identifier again and a send whose acquisitions all fail inserts nothing.  With a
nil store no `Insert` is made. -/
theorem sendMessage_inserts_once_per_acquisition {W S P : Type} (env : Env W S P)
    (self : ApnsClient W S) (msg : Message) :
    (msg.MsgType = MessageType.MESSAGE_TYPE_ENHANCED → ∀ s : S, self.storage = some s →
      (sendMessage env self msg).trace.filter Event.isInsert =
        List.replicate ((sendMessage env self msg).trace.countP Event.isAcquire)
          (Event.insert (env.UmarshalIdentifier msg) msg) ∧
      (sendMessage env self msg).trace.countP Event.isAcquire ≤ 3 ∧
      (∀ (pre post : List Event) (conn : IConn) (m : Message) (r : Option GoError),
        (sendMessage env self msg).trace = pre ++ Event.write conn m r :: post →
        ∃ before, pre = before ++
          [Event.get none (some conn), Event.insert (env.UmarshalIdentifier msg) msg]) ∧
      (sendMessage env self msg).trace.countP Event.isWrite =
        (sendMessage env self msg).trace.countP Event.isAcquire ∧
      (sendMessage env self msg).self.storage =
        some ((env.Insert (env.UmarshalIdentifier msg) msg)^[
          (sendMessage env self msg).trace.countP Event.isAcquire] s)) ∧
    (self.storage = none →
      (sendMessage env self msg).trace.countP Event.isInsert = 0 ∧
      (sendMessage env self msg).self.storage = none) := by
  constructor
  · intro he s hs
    obtain ⟨h1, h2, h3⟩ := sendLoop_inserts env msg he 3 none self s hs
    obtain ⟨c1, c2, c3, -, -, -⟩ := sendLoop_counts env msg 3 none self
    unfold sendMessage
    refine ⟨h1, ?_, h3, c3.symm, h2⟩
    omega
  · intro hs
    obtain ⟨h1, h2⟩ := sendLoop_no_insert env msg 3 none self (Or.inl hs)
    unfold sendMessage
    exact ⟨h1, by rw [h2, hs]⟩

/-- C10, at a send whose first write fails and whose second succeeds, and at a
send on a client without store. -/
theorem sendMessage_inserts_once_per_acquisition_witness :
    (sampleMessage.MsgType = MessageType.MESSAGE_TYPE_ENHANCED ∧
      (scriptedClient [writeFails 1 "reset", writeSucceeds 2]).storage = some [] ∧
      (sendMessage scripted (scriptedClient [writeFails 1 "reset", writeSucceeds 2])
          sampleMessage).trace.filter Event.isInsert =
        List.replicate ((sendMessage scripted (scriptedClient [writeFails 1 "reset", writeSucceeds 2])
          sampleMessage).trace.countP Event.isAcquire) (Event.insert 7 sampleMessage)) ∧
    (({ scriptedClient [writeSucceeds 2] with storage := none } :
        ApnsClient Pool (List (Nat × Message))).storage = none ∧
      (sendMessage scripted { scriptedClient [writeSucceeds 2] with storage := none }
        sampleMessage).trace.countP Event.isInsert = 0) :=
  ⟨⟨rfl, rfl,
      ((sendMessage_inserts_once_per_acquisition scripted
        (scriptedClient [writeFails 1 "reset", writeSucceeds 2]) sampleMessage).1 rfl [] rfl).1⟩,
    ⟨rfl,
      ((sendMessage_inserts_once_per_acquisition scripted
        { scriptedClient [writeSucceeds 2] with storage := none } sampleMessage).2 rfl).1⟩⟩

/-- C4 as stated fails: a payload that encodes, a client with a store, and a pool
whose three `Get` calls fail: `SendEnhancedNotification` returns the last `Get`
error, makes no `Insert`, and the store is still empty. -/
theorem SendEnhancedNotification_not_recorded_when_get_fails :
    scripted.WrapPayLoad [1] ≠ none ∧
    (scriptedClient [getFails "a", getFails "b", getFails "c"]).storage = some [] ∧
    (SendEnhancedNotification scripted (scriptedClient [getFails "a", getFails "b", getFails "c"])
      7 0 "token" [1]).trace =
      [Event.get (some "a") none, Event.get (some "b") none, Event.get (some "c") none] ∧
    (SendEnhancedNotification scripted (scriptedClient [getFails "a", getFails "b", getFails "c"])
      7 0 "token" [1]).trace.countP Event.isInsert = 0 ∧
    (SendEnhancedNotification scripted (scriptedClient [getFails "a", getFails "b", getFails "c"])
      7 0 "token" [1]).self.storage = some [] ∧
    (SendEnhancedNotification scripted (scriptedClient [getFails "a", getFails "b", getFails "c"])
      7 0 "token" [1]).err = some "c" := by
  decide

/-- C4, amended: for every call of `SendEnhancedNotification` whose payload
encodes, on a client with a store, every write of the call writes the Enhanced
message built from the arguments and comes right after the `Get` that acquired
its connection and the `Insert` of that message under `UmarshalIdentifier`; the
call makes one `Insert` per acquisition and the store ends as that many
`Insert`s applied to what it was (none when no attempt acquires a connection). -/
theorem SendEnhancedNotification_inserts_before_each_write {W S P : Type} (env : Env W S P)
    (self : ApnsClient W S) (identifier expiriedTime : Nat) (deviceToken : String) (pl : P)
    (payload : Item) (s : S)
    (hp : env.WrapPayLoad pl = some payload) (hs : self.storage = some s) :
    (∀ (pre post : List Event) (conn : IConn) (m : Message) (r : Option GoError),
      (SendEnhancedNotification env self identifier expiriedTime deviceToken pl).trace =
        pre ++ Event.write conn m r :: post →
      m = enhancedMessage env self identifier expiriedTime deviceToken payload ∧
      ∃ before, pre = before ++ [Event.get none (some conn),
        Event.insert
          (env.UmarshalIdentifier
            (enhancedMessage env self identifier expiriedTime deviceToken payload))
          (enhancedMessage env self identifier expiriedTime deviceToken payload)]) ∧
    (SendEnhancedNotification env self identifier expiriedTime deviceToken pl).trace.countP
        Event.isInsert =
      (SendEnhancedNotification env self identifier expiriedTime deviceToken pl).trace.countP
        Event.isAcquire ∧
    (SendEnhancedNotification env self identifier expiriedTime deviceToken pl).self.storage =
      some ((env.Insert
          (env.UmarshalIdentifier
            (enhancedMessage env self identifier expiriedTime deviceToken payload))
          (enhancedMessage env self identifier expiriedTime deviceToken payload))^[
        (SendEnhancedNotification env self identifier expiriedTime deviceToken pl).trace.countP
          Event.isAcquire] s) := by
  have he : (enhancedMessage env self identifier expiriedTime deviceToken payload).MsgType =
      MessageType.MESSAGE_TYPE_ENHANCED := rfl
  have hcall : SendEnhancedNotification env self identifier expiriedTime deviceToken pl =
      sendLoop env (enhancedMessage env self identifier expiriedTime deviceToken payload)
        3 none self := by
    simp [SendEnhancedNotification, hp, sendMessage]
  obtain ⟨h1, h2, h3⟩ := sendLoop_inserts env _ he 3 none self s hs
  rw [hcall]
  refine ⟨?_, ?_, h2⟩
  · intro pre post conn m r h
    refine ⟨?_, h3 pre post conn m r h⟩
    obtain ⟨c, r2, hw⟩ := sendLoop_writes_msg env _ 3 none self (Event.write conn m r)
      (by rw [h]; simp) rfl
    simp only [Event.write.injEq] at hw
    exact hw.2.1
  · rw [List.countP_eq_length_filter, h1, List.length_replicate]

/-- C4 amended, at a send whose first write fails and whose second succeeds. -/
theorem SendEnhancedNotification_inserts_before_each_write_witness :
    scripted.WrapPayLoad [1] = some { tag := 4, value := [1] } ∧
    (scriptedClient [writeFails 1 "reset", writeSucceeds 2]).storage = some [] ∧
    (SendEnhancedNotification scripted (scriptedClient [writeFails 1 "reset", writeSucceeds 2])
      7 0 "token" [1]).trace.countP Event.isInsert =
    (SendEnhancedNotification scripted (scriptedClient [writeFails 1 "reset", writeSucceeds 2])
      7 0 "token" [1]).trace.countP Event.isAcquire :=
  ⟨rfl, rfl,
    (SendEnhancedNotification_inserts_before_each_write scripted
      (scriptedClient [writeFails 1 "reset", writeSucceeds 2]) 7 0 "token" [1]
      { tag := 4, value := [1] } [] rfl rfl).2.1⟩

/-- C5: when the payload does not encode (`WrapPayLoad` returns nil),
`SendEnhancedNotification` returns the non-nil error
"SendEnhancedNotification|PAYLOAD|ENCODE|FAIL", makes no call on the pool, on a
connection or on the store, and leaves the client, its store and both counters
included, as it was. -/
theorem SendEnhancedNotification_encode_failure {W S P : Type} (env : Env W S P)
    (self : ApnsClient W S) (identifier expiriedTime : Nat) (deviceToken : String) (pl : P)
    (hp : env.WrapPayLoad pl = none) :
    (SendEnhancedNotification env self identifier expiriedTime deviceToken pl).err ≠ none ∧
    (SendEnhancedNotification env self identifier expiriedTime deviceToken pl).err =
      some "SendEnhancedNotification|PAYLOAD|ENCODE|FAIL" ∧
    (SendEnhancedNotification env self identifier expiriedTime deviceToken pl).trace = [] ∧
    (SendEnhancedNotification env self identifier expiriedTime deviceToken pl).self = self ∧
    (SendEnhancedNotification env self identifier expiriedTime deviceToken pl).self.sendCounter =
      self.sendCounter ∧
    (SendEnhancedNotification env self identifier expiriedTime deviceToken pl).self.failCounter =
      self.failCounter := by
  simp [SendEnhancedNotification, hp]

/-- C5, at the empty payload, which the scripted environment does not encode. -/
theorem SendEnhancedNotification_encode_failure_witness :
    scripted.WrapPayLoad [] = none ∧
    (SendEnhancedNotification scripted (scriptedClient [writeSucceeds 1]) 7 0 "token" []).err =
      some "SendEnhancedNotification|PAYLOAD|ENCODE|FAIL" ∧
    (SendEnhancedNotification scripted (scriptedClient [writeSucceeds 1]) 7 0 "token" []).trace =
      [] :=
  ⟨rfl,
    (SendEnhancedNotification_encode_failure scripted (scriptedClient [writeSucceeds 1])
      7 0 "token" [] rfl).2.1,
    (SendEnhancedNotification_encode_failure scripted (scriptedClient [writeSucceeds 1])
      7 0 "token" [] rfl).2.2.1⟩

/-- C8: `SendSimpleNotification` makes no `Insert` on the store, whatever the
device token, the payload, the pool and the connections: the store after the
call is the store before it, so any `Length` read off it is the same; the call
is `sendMessage` on the Simple message, so it makes at most 3 `Get` calls and at
most 3 writes, each of that message. -/
theorem SendSimpleNotification_never_stores {W S P : Type} (env : Env W S P)
    (self : ApnsClient W S) (deviceToken : String) (payload : P) :
    (SendSimpleNotification env self deviceToken payload).trace.countP Event.isInsert = 0 ∧
    (SendSimpleNotification env self deviceToken payload).self.storage = self.storage ∧
    (∀ Length : S → Nat,
      (SendSimpleNotification env self deviceToken payload).self.storage.map Length =
        self.storage.map Length) ∧
    (SendSimpleNotification env self deviceToken payload).trace.countP Event.isGet ≤ 3 ∧
    (SendSimpleNotification env self deviceToken payload).trace.countP Event.isWrite ≤ 3 ∧
    (∀ e ∈ (SendSimpleNotification env self deviceToken payload).trace, e.isWrite = true →
      ∃ conn r, e = Event.write conn (simpleMessage env self deviceToken payload) r) ∧
    SendSimpleNotification env self deviceToken payload =
      sendMessage env self (simpleMessage env self deviceToken payload) := by
  have hne : (simpleMessage env self deviceToken payload).MsgType ≠
      MessageType.MESSAGE_TYPE_ENHANCED := by
    simp [simpleMessage, NewMessage, Message.AddItem]
  obtain ⟨h1, h2⟩ := sendLoop_no_insert env _ 3 none self (Or.inr hne)
  obtain ⟨c1, c2, -, -, -, -⟩ := sendLoop_counts env
    (simpleMessage env self deviceToken payload) 3 none self
  unfold SendSimpleNotification sendMessage
  refine ⟨h1, h2, fun _ => by rw [h2], c1, by omega, ?_, rfl⟩
  exact sendLoop_writes_msg env _ 3 none self

/-- C6 fails on the code: a pool whose `Get` returns a nil error with a nil
connection.  With three such `Get`s `sendMessage` returns nil without having
written anything; after two failed writes and one such `Get` it returns nil
although no write succeeded. -/
theorem sendMessage_nil_without_successful_write :
    (sendMessage scripted (scriptedClient [getNothing, getNothing, getNothing])
      sampleMessage).err = none ∧
    (sendMessage scripted (scriptedClient [getNothing, getNothing, getNothing])
      sampleMessage).trace = [Event.get none none, Event.get none none, Event.get none none] ∧
    (sendMessage scripted (scriptedClient [writeFails 1 "reset", writeFails 2 "reset", getNothing])
      sampleMessage).err = none ∧
    (sendMessage scripted (scriptedClient [writeFails 1 "reset", writeFails 2 "reset", getNothing])
      sampleMessage).trace.countP Event.isWriteOk = 0 ∧
    (sendMessage scripted (scriptedClient [writeFails 1 "reset", writeFails 2 "reset", getNothing])
      sampleMessage).self.failCounter.total = 2 := by
  decide

/-- C2, at a send whose first write fails, second `Get` fails and third write
fails with "timeout". -/
theorem sendMessage_returns_third_error_witness :
    (attemptErrors (sendMessage scripted
      (scriptedClient [writeFails 1 "reset", getFails "closed", writeFails 2 "timeout"])
      sampleMessage).trace).all (fun e => e.isSome) = true ∧
    ∃ e1 e2 e3, attemptErrors (sendMessage scripted
      (scriptedClient [writeFails 1 "reset", getFails "closed", writeFails 2 "timeout"])
      sampleMessage).trace = [e1, e2, some e3] ∧
      (sendMessage scripted
        (scriptedClient [writeFails 1 "reset", getFails "closed", writeFails 2 "timeout"])
        sampleMessage).err = some e3 :=
  ⟨by decide,
    (sendMessage_returns_third_error scripted
      (scriptedClient [writeFails 1 "reset", getFails "closed", writeFails 2 "timeout"])
      sampleMessage (by decide)).1⟩

/-- C3, at a send whose first write fails and whose second, on connection 2,
succeeds: connection 1 ends under `broken`, connection 2 under `idle`. -/
theorem sendMessage_success_releases_and_stops_witness :
    (sendMessage scripted (scriptedClient [writeFails 1 "reset", writeSucceeds 2])
        sampleMessage).trace =
      [Event.get none (some 1), Event.insert 7 sampleMessage,
        Event.write 1 sampleMessage (some "reset"), Event.releaseBroken 1 none,
        Event.get none (some 2), Event.insert 7 sampleMessage] ++
        Event.write 2 sampleMessage none :: [Event.release 2] ∧
    (sendMessage scripted (scriptedClient [writeFails 1 "reset", writeSucceeds 2])
        sampleMessage).err = none ∧
    (sendMessage scripted (scriptedClient [writeFails 1 "reset", writeSucceeds 2])
        sampleMessage).trace.countP Event.isRelease = 1 ∧
    (∃ w2, replay scripted (scriptedClient [writeFails 1 "reset", writeSucceeds 2]).world
        ([Event.get none (some 1), Event.insert 7 sampleMessage,
          Event.write 1 sampleMessage (some "reset"), Event.releaseBroken 1 none,
          Event.get none (some 2), Event.insert 7 sampleMessage] ++
          [Event.write 2 sampleMessage none]) = some w2 ∧
      (sendMessage scripted (scriptedClient [writeFails 1 "reset", writeSucceeds 2])
        sampleMessage).self.world = (scripted.factory.Release 2 w2).2) ∧
    (sendMessage scripted (scriptedClient [writeFails 1 "reset", writeSucceeds 2])
        sampleMessage).self.world = { script := [], idle := [2], broken := [1] } :=
  ⟨by decide,
    (sendMessage_success_releases_and_stops scripted
      (scriptedClient [writeFails 1 "reset", writeSucceeds 2]) sampleMessage
      [Event.get none (some 1), Event.insert 7 sampleMessage,
        Event.write 1 sampleMessage (some "reset"), Event.releaseBroken 1 none,
        Event.get none (some 2), Event.insert 7 sampleMessage]
      [Event.release 2] 2 sampleMessage (by decide)).2.2.1,
    (sendMessage_success_releases_and_stops scripted
      (scriptedClient [writeFails 1 "reset", writeSucceeds 2]) sampleMessage
      [Event.get none (some 1), Event.insert 7 sampleMessage,
        Event.write 1 sampleMessage (some "reset"), Event.releaseBroken 1 none,
        Event.get none (some 2), Event.insert 7 sampleMessage]
      [Event.release 2] 2 sampleMessage (by decide)).2.2.2.1,
    (sendMessage_success_releases_and_stops scripted
      (scriptedClient [writeFails 1 "reset", writeSucceeds 2]) sampleMessage
      [Event.get none (some 1), Event.insert 7 sampleMessage,
        Event.write 1 sampleMessage (some "reset"), Event.releaseBroken 1 none,
        Event.get none (some 2), Event.insert 7 sampleMessage]
      [Event.release 2] 2 sampleMessage (by decide)).2.2.2.2.2,
    by decide⟩

end Apns

